import Mathlib

/-!
Shallow embedding of the transport core of the neo-tariff client library:
the response-envelope model and its validation, the best-effort error
message extraction, the HTTP error classification, the retrying transport
loop (sync and async variants), the raw-passthrough adapter, and the
per-shape decoder cache.  All definitions are translated from the source
modules of the library; theorems check the frozen specification claims
against them.
-/

/-- JSON values as decoded by the json module of the host language:
objects keep field order, integers and floating numbers are distinct. -/
inductive Json where
  | null : Json
  | bool (b : Bool) : Json
  | int (n : Int) : Json
  | float (q : ℚ) : Json
  | str (s : String) : Json
  | arr (elems : List Json) : Json
  | obj (fields : List (String × Json)) : Json


/-- First-match association-list lookup, the model of dictionary access. -/
def alookup {α β : Type} [DecidableEq α] : List (α × β) → α → Option β
  | [], _ => none
  | (k, v) :: rest, k' => if k = k' then some v else alookup rest k'

/-- Numeric value of a list of decimal digit characters. -/
def digitsVal (cs : List Char) : Option Nat :=
  if cs.isEmpty then none
  else if cs.all Char.isDigit then
    some (cs.foldl (fun a c => 10 * a + (c.toNat - 48)) 0)
  else none

/-- Surrounding whitespace removal on a character list. -/
def trimChars (cs : List Char) : List Char :=
  ((cs.dropWhile Char.isWhitespace).reverse.dropWhile Char.isWhitespace).reverse

/-- Model of float(string) conversion: optional sign, then digits with an
optional decimal point (at least one digit overall), surrounding
whitespace tolerated. -/
def parsePyFloat (s : String) : Option ℚ :=
  let cs := trimChars s.data
  let (sgn, u) : ℚ × List Char :=
    match cs with
    | '-' :: rest => (-1, rest)
    | '+' :: rest => (1, rest)
    | rest => (1, rest)
  let intPart := u.takeWhile (fun c => c ≠ '.')
  match u.dropWhile (fun c => c ≠ '.') with
  | [] => (digitsVal intPart).map (fun n => sgn * (n : ℚ))
  | _ :: frac =>
    if frac.any (fun c => c = '.') then none
    else if intPart.isEmpty ∧ frac.isEmpty then none
    else if intPart.all Char.isDigit ∧ frac.all Char.isDigit then
      let ip : ℚ := (intPart.foldl (fun x c => 10 * x + (c.toNat - 48)) 0 : Nat)
      let fp : ℚ :=
        ((frac.foldl (fun x c => 10 * x + (c.toNat - 48)) 0 : Nat) : ℚ) / (10 ^ frac.length : ℚ)
      some (sgn * (ip + fp))
    else none

/-- Model of int(string) conversion used by lax integer validation. -/
def parsePyInt (s : String) : Option Int :=
  let cs := trimChars s.data
  let (sgn, u) : Int × List Char :=
    match cs with
    | '-' :: rest => (-1, rest)
    | '+' :: rest => (1, rest)
    | rest => (1, rest)
  (digitsVal u).map (fun n => sgn * (n : Int))

/-- Lax boolean validation of the validation library: booleans, the
integers and floats 0 and 1, and a fixed set of strings are accepted. -/
def laxBool : Json → Option Bool
  | .bool b => some b
  | .int 0 => some false
  | .int 1 => some true
  | .float q => if q = 0 then some false else if q = 1 then some true else none
  | .str s =>
    let l := s.toLower
    if l = "true" ∨ l = "t" ∨ l = "yes" ∨ l = "y" ∨ l = "on" ∨ l = "1" then some true
    else if l = "false" ∨ l = "f" ∨ l = "no" ∨ l = "n" ∨ l = "off" ∨ l = "0" then some false
    else none
  | _ => none

/-- Lax string validation: only strings are accepted. -/
def laxStr : Json → Option String
  | .str s => some s
  | _ => none

/-- Lax integer validation: integers, integral floats and integer strings. -/
def laxInt : Json → Option Int
  | .int n => some n
  | .float q => if q.den = 1 then some q.num else none
  | .str s => parsePyInt s
  | _ => none

/-- Lax float validation: integers, floats and numeric strings. -/
def laxFloat : Json → Option ℚ
  | .int n => some (n : ℚ)
  | .float q => some q
  | .str s => parsePyFloat s
  | _ => none

/-- Lax dict validation: only JSON objects are accepted. -/
def laxObj : Json → Option (List (String × Json))
  | .obj l => some l
  | _ => none

/-- Validation of an optional model field with default None: an absent or
null value validates to none, any other value must pass the inner
validator. -/
def optField {α : Type} (v : Option Json) (f : Json → Option α) : Option (Option α) :=
  match v with
  | none => some none
  | some .null => some none
  | some j => (f j).map some

/-- Pagination metadata block of the envelope (`APIPagination`). -/
structure APIPagination where
  total : Option Int := none
  limit : Option Int := none
  offset : Option Int := none
  next_offset : Option Int := none
  has_more : Option Bool := none
  returned_count : Option Int := none


/-- Validation of `APIPagination` from a JSON value (extra keys allowed). -/
def validateAPIPagination : Json → Option APIPagination
  | .obj l => do
    let total ← optField (alookup l "total") laxInt
    let limit ← optField (alookup l "limit") laxInt
    let offset ← optField (alookup l "offset") laxInt
    let next_offset ← optField (alookup l "next_offset") laxInt
    let has_more ← optField (alookup l "has_more") laxBool
    let returned_count ← optField (alookup l "returned_count") laxInt
    pure { total := total, limit := limit, offset := offset,
           next_offset := next_offset, has_more := has_more,
           returned_count := returned_count }
  | _ => none

/-- A single structured error of the envelope (`APIRespError`):
code and message default to the empty string, field to null. -/
structure APIRespError where
  code : String := ""
  message : String := ""
  field : Option String := none


/-- Validation of `APIRespError` from a JSON value (extra keys allowed). -/
def validateAPIRespError : Json → Option APIRespError
  | .obj l => do
    let code ← match alookup l "code" with
      | none => some ""
      | some v => laxStr v
    let message ← match alookup l "message" with
      | none => some ""
      | some v => laxStr v
    let fld ← optField (alookup l "field") laxStr
    pure { code := code, message := message, field := fld }
  | _ => none

/-- Envelope metadata block (`APIMeta`); every declared field is optional. -/
structure APIMeta where
  timestamp_unixts : Option ℚ := none
  operation : Option String := none
  params : Option (List (String × Json)) := none
  hts_year : Option Int := none
  hts_version : Option Int := none
  pagination : Option APIPagination := none
  result_count : Option Int := none
  window_info : Option (List (String × Json)) := none


/-- Validation of `APIMeta` from a JSON value (extra keys allowed). -/
def validateAPIMeta : Json → Option APIMeta
  | .obj l => do
    let ts ← optField (alookup l "timestamp_unixts") laxFloat
    let op ← optField (alookup l "operation") laxStr
    let ps ← optField (alookup l "params") laxObj
    let hy ← optField (alookup l "hts_year") laxInt
    let hv ← optField (alookup l "hts_version") laxInt
    let pg ← optField (alookup l "pagination") validateAPIPagination
    let rc ← optField (alookup l "result_count") laxInt
    let wi ← optField (alookup l "window_info") laxObj
    pure { timestamp_unixts := ts, operation := op, params := ps,
           hts_year := hy, hts_version := hv, pagination := pg,
           result_count := rc, window_info := wi }
  | _ => none

/-- Validation of the errors field: null handled by the caller, a list is
validated elementwise, anything else is rejected. -/
def validateErrorsField (j : Json) : Option (List APIRespError) :=
  match j with
  | .arr es => es.mapM validateAPIRespError
  | _ => none

/-- The untyped response envelope (`APIResponse` instantiated at Any):
a required success flag, with optional meta, data and errors. -/
structure APIResponse where
  success : Bool
  meta : Option APIMeta := none
  data : Option Json := none
  errors : Option (List APIRespError) := none


/-- `APIResponse.model_validate` on a raw JSON value: the input must be an
object carrying a boolean success field; meta, data and errors are
optional; unknown keys are allowed at every level. -/
def APIResponse.model_validate : Json → Option APIResponse
  | .obj l => do
    let sv ← alookup l "success"
    let s ← laxBool sv
    let meta ← optField (alookup l "meta") validateAPIMeta
    let data : Option Json :=
      match alookup l "data" with
      | none => none
      | some .null => none
      | some v => some v
    let errors ← optField (alookup l "errors") validateErrorsField
    pure { success := s, meta := meta, data := data, errors := errors }
  | _ => none

/-- Equality test of a decoded JSON value against a string, as the host
language equality operator computes it (only strings compare equal). -/
def jsonEqStr (j : Json) (k : String) : Bool :=
  match j with
  | .str s => s = k
  | _ => false

/-- Substring test: does hay contain needle as a contiguous substring. -/
def isSubstr (needle hay : String) : Bool :=
  (List.range (hay.length + 1)).any (fun i => (hay.drop i).startsWith needle)

/-- Membership test of a string key in a decoded JSON value, as the host
language membership operator behaves: key lookup on objects, element
membership on lists, substring test on strings, a type error on numbers,
booleans and null. -/
def pyContains (j : Json) (k : String) : Except Unit Bool :=
  match j with
  | .obj l => .ok (alookup l k).isSome
  | .arr l => .ok (l.any (fun e => jsonEqStr e k))
  | .str s => .ok (isSubstr k s)
  | _ => .error ()

/-- Indexing a decoded JSON value with a string key: succeeds only on
objects holding that key; everywhere else the host language raises
(a type error on lists and strings indexed by a string, a key error on
objects missing the key). -/
def pyIndex (j : Json) (k : String) : Except Unit Json :=
  match j with
  | .obj l =>
    match alookup l k with
    | some v => .ok v
    | none => .error ()
  | _ => .error ()

/-- Iteration over a decoded JSON value: lists yield their elements,
strings their characters, objects their keys; numbers, booleans and null
are not iterable. -/
def pyIterate (j : Json) : Except Unit (List Json) :=
  match j with
  | .arr l => .ok l
  | .str s => .ok (s.data.map (fun c => Json.str (String.mk [c])))
  | .obj l => .ok (l.map (fun p => Json.str p.1))
  | _ => .error ()

mutual

/-- Rendering of a decoded JSON value inside a container, following the
host language conventions for None/True/False and quoted strings. -/
def pyReprJson : Json → String
  | .null => "None"
  | .bool true => "True"
  | .bool false => "False"
  | .int n => toString n
  | .float q => toString q
  | .str s => "\x27" ++ s ++ "\x27"
  | .arr l => "[" ++ pyReprList l ++ "]"
  | .obj l => "\x7b" ++ pyReprObj l ++ "\x7d"

/-- Comma-separated rendering of list elements. -/
def pyReprList : List Json → String
  | [] => ""
  | [x] => pyReprJson x
  | x :: xs => pyReprJson x ++ ", " ++ pyReprList xs

/-- Comma-separated rendering of object entries. -/
def pyReprObj : List (String × Json) → String
  | [] => ""
  | [(k, v)] => "\x27" ++ k ++ "\x27: " ++ pyReprJson v
  | (k, v) :: xs => "\x27" ++ k ++ "\x27: " ++ pyReprJson v ++ ", " ++ pyReprObj xs

end

/-- Stringification of a decoded JSON value: top-level strings stay bare,
containers are rendered. -/
def pyStr (j : Json) : String :=
  match j with
  | .str s => s
  | v => pyReprJson v

/-- The meta try-block of parse_envelope: best-effort, every exception
(a type error from the membership test or indexing, or a validation
failure) is swallowed and meta stays None. -/
def tryMeta (b : Json) : Option APIMeta :=
  match pyContains b "meta" with
  | .error _ => none
  | .ok false => none
  | .ok true =>
    match pyIndex b "meta" with
    | .error _ => none
    | .ok .null => none
    | .ok v => validateAPIMeta v

/-- The errors try-block of parse_envelope: iterate the errors value and
validate each element; any exception is swallowed and errors stays None. -/
def tryErrors (b : Json) : Option (List APIRespError) :=
  match pyContains b "errors" with
  | .error _ => none
  | .ok false => none
  | .ok true =>
    match pyIndex b "errors" with
    | .error _ => none
    | .ok .null => none
    | .ok v =>
      match pyIterate v with
      | .error _ => none
      | .ok items => items.mapM validateAPIRespError

/-- The message candidate right after the errors try-block: the first
validated error message when the list validated non-empty and that
message is itself non-empty, else the generic default. -/
def errorsMessage (b : Json) : Json :=
  match tryErrors b with
  | some (e :: _) => if e.message = "" then .str "API error" else .str e.message
  | _ => .str "API error"

/-- Best-effort extraction of meta, errors and a human message from an
optional JSON body (the function parse_envelope of the transport module).
The error result models the uncaught type error that escapes from the
detail block when the body is not an object. -/
def parse_envelope (body : Option Json) :
    Except Unit (Option APIMeta × Option (List APIRespError) × Json) :=
  match body with
  | none => .ok (none, none, .str "Unknown error")
  | some b =>
    let meta := tryMeta b
    let errors := tryErrors b
    let message := errorsMessage b
    match pyContains b "detail" with
    | .error _ => .error ()
    | .ok false => .ok (meta, errors, message)
    | .ok true =>
      match pyIndex b "detail" with
      | .error _ => .error ()
      | .ok detail =>
        match detail with
        | .str s => .ok (meta, errors, .str s)
        | .arr (first :: _) =>
          match first with
          | .obj fl => .ok (meta, errors, (alookup fl "msg").getD message)
          | _ => .ok (meta, errors, .str (pyStr first))
        | _ => .ok (meta, errors, message)

/-- The six HTTP-status failure subtypes of the exception hierarchy. -/
inductive HttpErrorKind where
  | authentication
  | notFound
  | requestValidation
  | rateLimit
  | server
  | genericHTTP

/-- Status-code dispatch of make_http_error. -/
def classify_status (status : Nat) : HttpErrorKind :=
  if status = 401 ∨ status = 403 then .authentication
  else if status = 404 then .notFound
  else if status = 422 then .requestValidation
  else if status = 429 then .rateLimit
  else if 500 ≤ status then .server
  else .genericHTTP

/-- An HTTP-status failure with its carried context. -/
structure HttpErr where
  kind : HttpErrorKind
  status_code : Nat
  message : Json
  errors : Option (List APIRespError)
  meta : Option APIMeta
  raw_body : String

/-- Construction of the appropriate HTTP error (make_http_error); the
error case is the type error escaping from parse_envelope. -/
def make_http_error (status : Nat) (body : Option Json) (raw_text : String) :
    Except Unit HttpErr :=
  match parse_envelope body with
  | .error e => .error e
  | .ok (meta, errors, message) =>
    .ok { kind := classify_status status, status_code := status,
          message := message, errors := errors, meta := meta,
          raw_body := raw_text }

/-- Failures of the client library visible to callers. -/
inductive SdkError where
  | http (e : HttpErr)
  | api (status_code : Nat) (message : String)
        (errors : Option (List APIRespError)) (meta : Option APIMeta)
  | generic (message : String)
  | conn (attempts : Nat) (cause : Nat)

/-- Unwrapping accessor of the envelope (require_data): return data, or
raise the "no data" error of the base failure type when data is null. -/
def APIResponse.require_data (r : APIResponse) : Except SdkError Json :=
  match r.data with
  | none => .error (.generic "Response contained no data")
  | some d => .ok d

/-- Construction of the API-business failure for success=False envelopes
(make_api_error). -/
def make_api_error (status : Nat) (parsed : APIResponse) : SdkError :=
  match parsed.errors with
  | some (e :: _) =>
    .api status (if e.message = "" then "API returned success=False" else e.message)
      parsed.errors parsed.meta
  | _ => .api status "API returned success=False" parsed.errors parsed.meta

/-- An HTTP response as the transport sees it: status code, the value of
the Retry-After header when present, the JSON decoding of the body (none
when the body is not valid JSON), and the raw body text. -/
structure Response where
  status : Nat
  retryAfter : Option String := none
  json : Option Json := none
  text : String := ""

/-- Anything the shared response-handling step can raise: a library
failure, or an exception escaping the handling code itself. -/
inductive PyError where
  | sdk (e : SdkError)
  | typeError
  | validationError
  | assertionError

/-- Shared response-handling flow (handle_response_data): non-2xx statuses
raise a classified HTTP failure, a non-JSON success body raises a generic
failure with a truncated excerpt, then the envelope is validated and a
success=False envelope raises the API-business failure. -/
def handle_response_data (response : Response) : Except PyError APIResponse :=
  if 400 ≤ response.status then
    match make_http_error response.status response.json response.text with
    | .ok e => .error (.sdk (.http e))
    | .error _ => .error .typeError
  else
    match response.json with
    | none => .error (.sdk (.generic ("Expected JSON response, got: " ++ response.text.take 200)))
    | some b =>
      match APIResponse.model_validate b with
      | none => .error .validationError
      | some parsed =>
        if parsed.success then .ok parsed
        else .error (.sdk (make_api_error response.status parsed))

/-- Backoff duration before the next attempt (compute_backoff): the
exponential schedule capped at 8 seconds, raised to the Retry-After value
when the header is present with a larger valid numeric value; empty or
invalid header values are ignored. -/
def compute_backoff (attempt : Nat) (response : Option Response) : ℚ :=
  let backoff : ℚ := min ((2 ^ attempt : ℚ) * (1 / 2)) 8
  match response with
  | none => backoff
  | some r =>
    match r.retryAfter with
    | none => backoff
    | some s =>
      if s = "" then backoff
      else
        match parsePyFloat s with
        | some v => max backoff v
        | none => backoff

/-- Status codes that are safe to retry (transient server errors). -/
def retryStatusCodes : List Nat := [408, 429, 500, 502, 503, 504]

/-- Outcome of one network attempt: either a transport-level exception
(tagged by an identifier so wrapping can be observed) or a response. -/
inductive Attempt where
  | netExc (e : Nat)
  | resp (r : Response)

/-- Result of the retry loop: a returned response, the raised connection
failure carrying the attempt count of its message and the wrapped cause,
or the unreachable assertion at the end of the loop. -/
inductive SendResult where
  | returned (r : Response)
  | connError (attempts : Nat) (cause : Nat)
  | assertFail

/-- Observable trace of one run of the retry loop: its result, the number
of network calls issued, and the backoff durations slept. -/
structure Trace where
  result : SendResult
  calls : Nat
  backoffs : List ℚ

/-- End of the loop body: raise the connection failure when the last
attempt recorded a network exception, else return the last response
(the final assertion is unreachable when at least one attempt ran). -/
def finishLoop (maxRetries : Nat) (lastExc : Option Nat) (lastResp : Option Response) :
    SendResult :=
  match lastExc, lastResp with
  | some e, _ => .connError (maxRetries + 1) e
  | none, some r => .returned r
  | none, none => .assertFail

/-- The retry loop of the blocking transport, one iteration per unit of
fuel: issue the attempt, return immediately on a non-retryable status,
otherwise record the outcome, back off when attempts remain, and retry. -/
def HttpTransport.sendGo (f : Nat → Attempt) (maxRetries : Nat) :
    Nat → Nat → Option Nat → Option Response → Trace
  | 0, _, lastExc, lastResp =>
    { result := finishLoop maxRetries lastExc lastResp, calls := 0, backoffs := [] }
  | fuel + 1, attempt, _, _ =>
    match f attempt with
    | .resp r =>
      if r.status ∈ retryStatusCodes then
        let rest := HttpTransport.sendGo f maxRetries fuel (attempt + 1) none (some r)
        { result := rest.result,
          calls := rest.calls + 1,
          backoffs :=
            (if attempt < maxRetries then [compute_backoff attempt (some r)] else [])
              ++ rest.backoffs }
      else
        { result := .returned r, calls := 1, backoffs := [] }
    | .netExc e =>
      let rest := HttpTransport.sendGo f maxRetries fuel (attempt + 1) (some e) none
      { result := rest.result,
        calls := rest.calls + 1,
        backoffs :=
          (if attempt < maxRetries then [compute_backoff attempt none] else [])
            ++ rest.backoffs }

/-- One logical request of the blocking transport: maxRetries + 1 attempts
starting with no recorded exception and no recorded response. -/
def HttpTransport.send_with_retries (f : Nat → Attempt) (maxRetries : Nat) : Trace :=
  HttpTransport.sendGo f maxRetries (maxRetries + 1) 0 none none

/-- The retry loop of the cooperative transport; the body is the same as
the blocking variant, only the suspension mechanism of the source differs. -/
def AsyncHttpTransport.sendGo (f : Nat → Attempt) (maxRetries : Nat) :
    Nat → Nat → Option Nat → Option Response → Trace
  | 0, _, lastExc, lastResp =>
    { result := finishLoop maxRetries lastExc lastResp, calls := 0, backoffs := [] }
  | fuel + 1, attempt, _, _ =>
    match f attempt with
    | .resp r =>
      if r.status ∈ retryStatusCodes then
        let rest := AsyncHttpTransport.sendGo f maxRetries fuel (attempt + 1) none (some r)
        { result := rest.result,
          calls := rest.calls + 1,
          backoffs :=
            (if attempt < maxRetries then [compute_backoff attempt (some r)] else [])
              ++ rest.backoffs }
      else
        { result := .returned r, calls := 1, backoffs := [] }
    | .netExc e =>
      let rest := AsyncHttpTransport.sendGo f maxRetries fuel (attempt + 1) (some e) none
      { result := rest.result,
        calls := rest.calls + 1,
        backoffs :=
          (if attempt < maxRetries then [compute_backoff attempt none] else [])
            ++ rest.backoffs }

/-- One logical request of the cooperative transport. -/
def AsyncHttpTransport.send_with_retries (f : Nat → Attempt) (maxRetries : Nat) : Trace :=
  AsyncHttpTransport.sendGo f maxRetries (maxRetries + 1) 0 none none

/-- The non-raising wrapper around a raw response. -/
structure RawResponse where
  http_response : Response
  parsed : Option APIResponse

/-- Best-effort construction of a RawResponse (make_raw): the parsed
envelope is present exactly when the body decoded as JSON and validated
as an envelope; every failure leaves parsed as None. -/
def make_raw (response : Response) : RawResponse :=
  { http_response := response,
    parsed := response.json.bind (fun b => APIResponse.model_validate b) }

/-- request_raw of the transport: run the retry loop, then wrap whatever
response came back without raising; only connection exhaustion (or the
unreachable assertion) escapes. -/
def HttpTransport.request_raw (f : Nat → Attempt) (maxRetries : Nat) :
    Except PyError RawResponse :=
  match (HttpTransport.send_with_retries f maxRetries).result with
  | .returned r => .ok (make_raw r)
  | .connError a e => .error (.sdk (.conn a e))
  | .assertFail => .error .assertionError

/-- Connection-pool ownership state of the wrapping transport. -/
structure HttpTransport where
  closed : Bool

/-- Closing the owning transport closes its connection pool. -/
def HttpTransport.close (_t : HttpTransport) : HttpTransport :=
  { closed := true }

/-- The raw-passthrough adapter holds a non-owning reference to the
transport it wraps. -/
structure RawHttpTransport where
  inner : HttpTransport

/-- Closing the adapter is a no-op: the wrapped transport keeps ownership
of the connection pool, so its state is left untouched. -/
def RawHttpTransport.close (t : RawHttpTransport) : RawHttpTransport :=
  t

/-- A decoder for one payload shape, identified by the shape it was built
for (the model of a TypeAdapter instance). -/
structure ShapeAdapter (K : Type) where
  shape : K

/-- Building a fresh decoder for a shape key. -/
def buildAdapter {K : Type} (k : K) : ShapeAdapter K :=
  { shape := k }

/-- The process-lifetime decoder cache together with the log of builds it
performed, in order. -/
structure AdapterCache (K : Type) where
  entries : List (K × ShapeAdapter K)
  builds : List K

/-- The empty cache at process start. -/
def AdapterCache.empty (K : Type) : AdapterCache K :=
  { entries := [], builds := [] }

/-- get_adapter: return the cached decoder for the key, or build one,
store it and return it (the sequential collapse of the double-checked
locking of the source). -/
def get_adapter {K : Type} [DecidableEq K] (k : K) (c : AdapterCache K) :
    ShapeAdapter K × AdapterCache K :=
  match alookup c.entries k with
  | some d => (d, c)
  | none =>
    (buildAdapter k,
     { entries := c.entries ++ [(k, buildAdapter k)],
       builds := c.builds ++ [k] })

/-- A sequence of cache requests, threaded through the cache state. -/
def runGets {K : Type} [DecidableEq K] (ks : List K) (c : AdapterCache K) :
    AdapterCache K :=
  ks.foldl (fun st k => (get_adapter k st).2) c

/-- Does an attempt outcome keep the retry loop going (a network exception
or a retryable status), as opposed to an immediate return. -/
def keepsRetrying : Attempt → Bool
  | .netExc _ => true
  | .resp r => decide (r.status ∈ retryStatusCodes)

/-- The loop result dictated by the outcome of the final attempt executed:
a network exception turns into the connection failure, a response is
returned. -/
def finalOutcome (maxRetries : Nat) : Attempt → SendResult
  | .netExc e => .connError (maxRetries + 1) e
  | .resp r => .returned r

/-- Detail values the extraction leaves without effect: anything that is
neither a plain string nor a non-empty list. -/
def detailIgnored : Json → Bool
  | .str _ => false
  | .arr (_ :: _) => false
  | _ => true

/-- The declared top-level field names of the envelope model. -/
def apiResponseKeys : List String := ["success", "meta", "data", "errors"]

/-- The declared field names of the meta model. -/
def apiMetaKeys : List String :=
  ["timestamp_unixts", "operation", "params", "hts_year", "hts_version",
   "pagination", "result_count", "window_info"]

/-- The declared field names of the pagination model. -/
def apiPaginationKeys : List String :=
  ["total", "limit", "offset", "next_offset", "has_more", "returned_count"]

/-- The declared field names of the structured error model. -/
def apiRespErrorKeys : List String := ["code", "message", "field"]

/-- A 502 response whose JSON body is the list ["detail"]: indexing that
list with the string key raises a type error in the extraction. -/
def detailTrap : Response :=
  { status := 502, retryAfter := none, json := some (.arr [.str "detail"]),
    text := "[\"detail\"]" }

/-- A 502 response with an empty JSON object body. -/
def obj502 : Response :=
  { status := 502, retryAfter := none, json := some (.obj []), text := "" }

/-- A 404 response with a non-JSON body. -/
def raw404 : Response :=
  { status := 404, retryAfter := none, json := none, text := "nope" }

/-- A 429 response carrying Retry-After: 5. -/
def retryAfter5 : Response :=
  { status := 429, retryAfter := some "5", json := none, text := "" }

/-- Well-formedness of the decoder cache: the stored keys are exactly the
build log, and no key was ever built twice. -/
def CacheWF {K : Type} (c : AdapterCache K) : Prop :=
  c.entries.map Prod.fst = c.builds ∧ c.builds.Nodup

lemma alookup_append_of_notin {α β : Type} [DecidableEq α] (l extras : List (α × β)) (k : α)
    (h : ∀ p ∈ extras, p.1 ≠ k) : alookup (l ++ extras) k = alookup l k := by
  induction l with
  | nil =>
    simp only [List.nil_append, alookup]
    induction extras with
    | nil => rfl
    | cons p rest ih =>
      have hp : p.1 ≠ k := h p (by simp)
      obtain ⟨k1, v1⟩ := p
      simp only [alookup, if_neg hp]
      exact ih (fun q hq => h q (by simp [hq]))
  | cons p rest ih =>
    obtain ⟨k1, v1⟩ := p
    by_cases hk : k1 = k
    · simp [alookup, hk]
    · simp only [List.cons_append, alookup, if_neg hk]
      exact ih

lemma alookup_append_of_some {α β : Type} [DecidableEq α] (l extras : List (α × β)) (k : α)
    {v : β} (h : alookup l k = some v) : alookup (l ++ extras) k = some v := by
  induction l with
  | nil => simp [alookup] at h
  | cons p rest ih =>
    obtain ⟨k1, v1⟩ := p
    by_cases hk : k1 = k
    · simp [alookup, hk] at h ⊢; exact h
    · simp only [alookup, if_neg hk] at h
      simp only [List.cons_append, alookup, if_neg hk]
      exact ih h

lemma alookup_none_notMem {α β : Type} [DecidableEq α] (l : List (α × β)) (k : α)
    (h : alookup l k = none) : k ∉ l.map Prod.fst := by
  induction l with
  | nil => simp
  | cons p rest ih =>
    obtain ⟨k1, v1⟩ := p
    by_cases hk : k1 = k
    · simp [alookup, hk] at h
    · simp only [alookup, if_neg hk] at h
      simp only [List.map_cons, List.mem_cons]
      rintro (rfl | hmem)
      · exact hk rfl
      · exact ih h hmem

lemma retry_status_ge_400 {s : Nat} (h : s ∈ retryStatusCodes) : 400 ≤ s := by
  simp only [retryStatusCodes, List.mem_cons, List.not_mem_nil, or_false] at h
  rcases h with rfl | rfl | rfl | rfl | rfl | rfl <;> omega

lemma parsePyFloat_empty : parsePyFloat "" = none := rfl

lemma compute_backoff_none (n : Nat) :
    compute_backoff n none = min ((2 ^ n : ℚ) * (1 / 2)) 8 := rfl

lemma compute_backoff_header (n : Nat) (r : Response) (s : String) (q : ℚ)
    (hs : r.retryAfter = some s) (hq : parsePyFloat s = some q) :
    compute_backoff n (some r) = max (min ((2 ^ n : ℚ) * (1 / 2)) 8) q := by
  by_cases hempty : s = ""
  · subst hempty
    rw [parsePyFloat_empty] at hq
    exact absurd hq (by simp)
  · simp [compute_backoff, hs, hempty, hq]

lemma asyncGo_eq_go (f : Nat → Attempt) (maxRetries : Nat) :
    ∀ fuel attempt lastExc lastResp,
      AsyncHttpTransport.sendGo f maxRetries fuel attempt lastExc lastResp =
        HttpTransport.sendGo f maxRetries fuel attempt lastExc lastResp := by
  intro fuel
  induction fuel with
  | zero => intro attempt lastExc lastResp; rfl
  | succ n ih =>
    intro attempt lastExc lastResp
    simp only [AsyncHttpTransport.sendGo, HttpTransport.sendGo]
    cases f attempt with
    | resp r =>
      by_cases hr : r.status ∈ retryStatusCodes
      · simp [hr, ih]
      · simp [hr]
    | netExc e => simp [ih]

/-- Claim C5: with no response or no Retry-After header the backoff is
min(2 ^ attempt * 0.5, 8.0), in particular 0.5 at attempt 0; with a valid
numeric header value h the backoff is max of the computed value and h, so
the header wins only when it is larger and the backoff is always at least
h; a non-numeric header value is ignored silently. -/
theorem claim5_backoff :
    (∀ n, compute_backoff n none = min ((2 ^ n : ℚ) * (1 / 2)) 8)
  ∧ compute_backoff 0 none = 1 / 2
  ∧ (∀ n r, (r : Response).retryAfter = none → compute_backoff n (some r) = min ((2 ^ n : ℚ) * (1 / 2)) 8)
  ∧ (∀ n (r : Response) s q, r.retryAfter = some s → parsePyFloat s = some q →
      compute_backoff n (some r) = max (min ((2 ^ n : ℚ) * (1 / 2)) 8) q)
  ∧ (∀ n (r : Response) s q, r.retryAfter = some s → parsePyFloat s = some q →
      q ≤ min ((2 ^ n : ℚ) * (1 / 2)) 8 →
      compute_backoff n (some r) = min ((2 ^ n : ℚ) * (1 / 2)) 8)
  ∧ (∀ n (r : Response) s q, r.retryAfter = some s → parsePyFloat s = some q →
      q ≤ compute_backoff n (some r))
  ∧ (∀ n (r : Response) s, r.retryAfter = some s → parsePyFloat s = none →
      compute_backoff n (some r) = min ((2 ^ n : ℚ) * (1 / 2)) 8) := by
  refine ⟨fun n => rfl, ?_, ?_, ?_, ?_, ?_, ?_⟩
  · rw [compute_backoff_none]
    norm_num
  · intro n r hr
    simp [compute_backoff, hr]
  · intro n r s q hs hq
    exact compute_backoff_header n r s q hs hq
  · intro n r s q hs hq hle
    rw [compute_backoff_header n r s q hs hq]
    exact max_eq_left hle
  · intro n r s q hs hq
    rw [compute_backoff_header n r s q hs hq]
    exact le_max_right _ _
  · intro n r s hs hq
    by_cases hempty : s = ""
    · subst hempty; simp [compute_backoff, hs]
    · simp [compute_backoff, hs, hempty, hq]

/-- Claim C5 witness: at attempt 1 with Retry-After 5 the backoff is 5
(the computed value would be 1), and at attempt 0 without a response the
backoff is one half. -/
theorem claim5_backoff_witness :
    compute_backoff 1 (some retryAfter5) = 5 ∧ compute_backoff 0 none = 1 / 2 := by
  constructor
  · have h := claim5_backoff.2.2.2.1 1 retryAfter5 "5" 5 rfl (by simp +decide [parsePyFloat, trimChars, digitsVal])
    rw [h]
    norm_num
  · exact claim5_backoff.2.1

/-- Claim C6: the blocking and the cooperative transports implement the
same retry policy: for every retry budget and every sequence of attempt
outcomes the two loops produce identical traces, that is the same result,
the same number of network calls and the same backoff durations. -/
theorem claim6_sync_async_parity (f : Nat → Attempt) (maxRetries : Nat) :
    AsyncHttpTransport.send_with_retries f maxRetries =
      HttpTransport.send_with_retries f maxRetries := by
  unfold AsyncHttpTransport.send_with_retries HttpTransport.send_with_retries
  exact asyncGo_eq_go f maxRetries (maxRetries + 1) 0 none none

/-- Claim C7: require_data returns the data field unchanged whenever it is
non-null, regardless of the success flag and the other fields, and raises
the "no data" base failure exactly when data is null; decoding the
envelope with data year 2025 and unwrapping returns that object unchanged,
and unwrapping a decoded envelope with null data raises the failure. -/
theorem claim7_require_data :
    (∀ r : APIResponse, ∀ d, r.data = some d → r.require_data = .ok d)
  ∧ (∀ r : APIResponse, r.data = none →
      r.require_data = .error (.generic "Response contained no data"))
  ∧ APIResponse.model_validate (.obj [("success", .bool true), ("data", .obj [("year", .int 2025)])])
      = some { success := true, meta := none,
               data := some (.obj [("year", .int 2025)]), errors := none }
  ∧ (APIResponse.model_validate
        (.obj [("success", .bool true), ("data", .obj [("year", .int 2025)])])).map
      APIResponse.require_data = some (.ok (.obj [("year", .int 2025)]))
  ∧ (APIResponse.model_validate (.obj [("success", .bool true), ("data", .null)])).map
      APIResponse.require_data
      = some (.error (.generic "Response contained no data")) := by
  refine ⟨?_, ?_, rfl, rfl, rfl⟩
  · intro r d h
    simp [APIResponse.require_data, h]
  · intro r h
    simp [APIResponse.require_data, h]

/-- Claim C7 witness: the two unconditional branches of require_data
applied to concrete envelopes. -/
theorem claim7_require_data_witness :
    APIResponse.require_data { success := false, data := some (.int 3) } = .ok (.int 3)
  ∧ APIResponse.require_data { success := true, data := none }
      = .error (.generic "Response contained no data") :=
  ⟨claim7_require_data.1 { success := false, data := some (.int 3) } (.int 3) rfl,
   claim7_require_data.2.1 { success := true, data := none } rfl⟩

lemma sendGo_run (f : Nat → Attempt) (maxRetries : Nat) :
    ∀ fuel attempt lastExc lastResp, 1 ≤ fuel →
      (∀ i, i + 1 < fuel → keepsRetrying (f (attempt + i)) = true) →
      (HttpTransport.sendGo f maxRetries fuel attempt lastExc lastResp).calls = fuel ∧
      (HttpTransport.sendGo f maxRetries fuel attempt lastExc lastResp).result =
        finalOutcome maxRetries (f (attempt + fuel - 1)) := by
  intro fuel
  induction fuel with
  | zero => intro attempt lastExc lastResp h; omega
  | succ n ih =>
    intro attempt lastExc lastResp _ hcont
    rcases Nat.eq_zero_or_pos n with hn | hn
    · subst hn
      cases hf : f attempt with
      | resp r =>
        by_cases hr : r.status ∈ retryStatusCodes
        · simp [HttpTransport.sendGo, hf, hr, finishLoop, finalOutcome]
        · simp [HttpTransport.sendGo, hf, hr, finalOutcome]
      | netExc e =>
        simp [HttpTransport.sendGo, hf, finishLoop, finalOutcome]
    · have hk : keepsRetrying (f attempt) = true := hcont 0 (by omega)
      have hcont' : ∀ i, i + 1 < n → keepsRetrying (f (attempt + 1 + i)) = true := by
        intro i hi
        have h1 := hcont (i + 1) (by omega)
        have harith : attempt + (i + 1) = attempt + 1 + i := by omega
        rwa [harith] at h1
      have harith2 : attempt + 1 + n - 1 = attempt + n := by omega
      have hgoalarith : attempt + (n + 1) - 1 = attempt + n := by omega
      cases hf : f attempt with
      | resp r =>
        have hr : r.status ∈ retryStatusCodes := by
          simp only [keepsRetrying, hf, decide_eq_true_eq] at hk
          exact hk
        obtain ⟨ihc, ihr⟩ := ih (attempt + 1) none (some r) (by omega) hcont'
        rw [harith2] at ihr
        rw [hgoalarith]
        simp only [HttpTransport.sendGo, hf, if_pos hr]
        exact ⟨by simpa using ihc, by simpa using ihr⟩
      | netExc e =>
        obtain ⟨ihc, ihr⟩ := ih (attempt + 1) (some e) none (by omega) hcont'
        rw [harith2] at ihr
        rw [hgoalarith]
        simp only [HttpTransport.sendGo, hf]
        exact ⟨by simpa using ihc, by simpa using ihr⟩

lemma sendGo_conn (f : Nat → Attempt) (maxRetries : Nat) :
    ∀ fuel attempt lastExc lastResp a e,
      (HttpTransport.sendGo f maxRetries fuel attempt lastExc lastResp).result = .connError a e →
      a = maxRetries + 1 ∧
        ((fuel = 0 ∧ lastExc = some e) ∨ (1 ≤ fuel ∧ f (attempt + fuel - 1) = .netExc e)) := by
  intro fuel
  induction fuel with
  | zero =>
    intro attempt lastExc lastResp a e h
    cases lastExc with
    | some x =>
      simp only [HttpTransport.sendGo, finishLoop] at h
      cases h
      exact ⟨rfl, .inl ⟨rfl, rfl⟩⟩
    | none =>
      cases lastResp <;> simp [HttpTransport.sendGo, finishLoop] at h
  | succ n ih =>
    intro attempt lastExc lastResp a e h
    have hgoalarith : attempt + (n + 1) - 1 = attempt + n := by omega
    have harith2 : attempt + 1 + n - 1 = attempt + n := by omega
    cases hf : f attempt with
    | resp r =>
      by_cases hr : r.status ∈ retryStatusCodes
      · simp only [HttpTransport.sendGo, hf, if_pos hr] at h
        obtain ⟨ha, hcase⟩ := ih (attempt + 1) none (some r) a e h
        refine ⟨ha, .inr ?_⟩
        rcases hcase with ⟨_, habs⟩ | ⟨hge, hnet⟩
        · cases habs
        · refine ⟨by omega, ?_⟩
          rw [hgoalarith]
          rwa [harith2] at hnet
      · simp only [HttpTransport.sendGo, hf, if_neg hr] at h
        cases h
    | netExc e2 =>
      simp only [HttpTransport.sendGo, hf] at h
      obtain ⟨ha, hcase⟩ := ih (attempt + 1) (some e2) none a e h
      refine ⟨ha, .inr ?_⟩
      rcases hcase with ⟨hn0, hsome⟩ | ⟨hge, hnet⟩
      · subst hn0
        have he : e2 = e := by injection hsome
        subst he
        refine ⟨by omega, ?_⟩
        have hx : attempt + (0 + 1) - 1 = attempt := by omega
        rw [hx]
        exact hf
      · refine ⟨by omega, ?_⟩
        rw [hgoalarith]
        rwa [harith2] at hnet

lemma parse_envelope_obj_ok (l : List (String × Json)) :
    ∃ out, parse_envelope (some (Json.obj l)) = .ok out := by
  cases hres : parse_envelope (some (Json.obj l)) with
  | ok out => exact ⟨out, rfl⟩
  | error u =>
    exfalso
    cases halook : alookup l "detail" with
    | none => simp [parse_envelope, pyContains, halook] at hres
    | some v =>
      cases v with
      | arr elems =>
        cases elems with
        | nil => simp [parse_envelope, pyContains, pyIndex, halook] at hres
        | cons first rest =>
          cases first <;> simp [parse_envelope, pyContains, pyIndex, halook] at hres
      | null => simp [parse_envelope, pyContains, pyIndex, halook] at hres
      | bool b => simp [parse_envelope, pyContains, pyIndex, halook] at hres
      | int n => simp [parse_envelope, pyContains, pyIndex, halook] at hres
      | float q => simp [parse_envelope, pyContains, pyIndex, halook] at hres
      | str s => simp [parse_envelope, pyContains, pyIndex, halook] at hres
      | obj fs => simp [parse_envelope, pyContains, pyIndex, halook] at hres

/-- Claim C1 counterexample: a body carrying both a validating errors list
(first message boom) and a string detail field yields the detail string
from-detail, not the errors message the claim prescribes, so the errors
message does not take priority. -/
theorem claim1_counterexample :
    parse_envelope (some (.obj
        [("errors", .arr [.obj [("code", .str "E1"), ("message", .str "boom")]]),
         ("detail", .str "from-detail")]))
      = .ok (none, some [{ code := "E1", message := "boom", field := none }],
             .str "from-detail")
  ∧ Json.str "from-detail" ≠ Json.str "boom" := by
  constructor
  · rfl
  · intro h
    injection h with h2
    exact absurd h2 (by decide)

/-- Claim C1 (amended): on a JSON body dict the extraction never throws;
the errors try-block yields a candidate message (first validated error
message when non-empty, else the generic default), and a present detail
field overrides that candidate whenever it is a plain string (used as-is)
or a non-empty list (taking the first element msg field when the element
is a dict, defaulting to the candidate when msg is absent, else the
stringified element); with no body the message is Unknown error, and a
detail of any other shape leaves the candidate in force. -/
theorem claim1_message_extraction :
    (∀ l : List (String × Json), ∃ out, parse_envelope (some (.obj l)) = .ok out)
  ∧ parse_envelope none = .ok (none, none, .str "Unknown error")
  ∧ (∀ l s, alookup l "detail" = some (.str s) →
      parse_envelope (some (.obj l)) = .ok (tryMeta (.obj l), tryErrors (.obj l), .str s))
  ∧ (∀ l fl rest, alookup l "detail" = some (.arr (.obj fl :: rest)) →
      parse_envelope (some (.obj l)) =
        .ok (tryMeta (.obj l), tryErrors (.obj l),
          (alookup fl "msg").getD (errorsMessage (.obj l))))
  ∧ (∀ l first rest, alookup l "detail" = some (.arr (first :: rest)) →
      (∀ fl, first ≠ .obj fl) →
      parse_envelope (some (.obj l)) =
        .ok (tryMeta (.obj l), tryErrors (.obj l), .str (pyStr first)))
  ∧ (∀ l, alookup l "detail" = none →
      parse_envelope (some (.obj l)) =
        .ok (tryMeta (.obj l), tryErrors (.obj l), errorsMessage (.obj l)))
  ∧ (∀ l v, alookup l "detail" = some v → detailIgnored v = true →
      parse_envelope (some (.obj l)) =
        .ok (tryMeta (.obj l), tryErrors (.obj l), errorsMessage (.obj l)))
  ∧ (∀ b e es, tryErrors b = some (e :: es) → e.message ≠ "" →
      errorsMessage b = .str e.message)
  ∧ (∀ b e es, tryErrors b = some (e :: es) → e.message = "" →
      errorsMessage b = .str "API error")
  ∧ (∀ b, tryErrors b = none → errorsMessage b = .str "API error")
  ∧ (∀ b, tryErrors b = some [] → errorsMessage b = .str "API error") := by
  refine ⟨parse_envelope_obj_ok, rfl, ?_, ?_, ?_, ?_, ?_, ?_, ?_, ?_, ?_⟩
  · intro l s h
    simp [parse_envelope, pyContains, pyIndex, h]
  · intro l fl rest h
    simp [parse_envelope, pyContains, pyIndex, h]
  · intro l first rest h hne
    cases first with
    | obj fs => exact absurd rfl (hne fs)
    | null => simp [parse_envelope, pyContains, pyIndex, h]
    | bool b => simp [parse_envelope, pyContains, pyIndex, h]
    | int n => simp [parse_envelope, pyContains, pyIndex, h]
    | float q => simp [parse_envelope, pyContains, pyIndex, h]
    | str s => simp [parse_envelope, pyContains, pyIndex, h]
    | arr el2 => simp [parse_envelope, pyContains, pyIndex, h]
  · intro l h
    simp [parse_envelope, pyContains, h]
  · intro l v h hig
    cases v with
    | str s => simp [detailIgnored] at hig
    | arr elems =>
      cases elems with
      | nil => simp [parse_envelope, pyContains, pyIndex, h]
      | cons first rest => simp [detailIgnored] at hig
    | null => simp [parse_envelope, pyContains, pyIndex, h]
    | bool b => simp [parse_envelope, pyContains, pyIndex, h]
    | int n => simp [parse_envelope, pyContains, pyIndex, h]
    | float q => simp [parse_envelope, pyContains, pyIndex, h]
    | obj fs => simp [parse_envelope, pyContains, pyIndex, h]
  · intro b e es h hne
    simp [errorsMessage, h, hne]
  · intro b e es h he
    simp [errorsMessage, h, he]
  · intro b h
    simp [errorsMessage, h]
  · intro b h
    simp [errorsMessage, h]

/-- Claim C1 witness: concrete instantiations of the amended statement:
a body whose only relevant key is a string detail yields that string,
and a body with a validating errors list and no detail yields the first
error message. -/
theorem claim1_message_extraction_witness :
    parse_envelope (some (.obj [("detail", .str "boom")]))
      = .ok (none, none, .str "boom")
  ∧ parse_envelope (some (.obj [("errors", .arr [.obj [("message", .str "bad input")]])]))
      = .ok (none, some [{ code := "", message := "bad input", field := none }],
             .str "bad input") := by
  constructor
  · have h := claim1_message_extraction.2.2.1 [("detail", .str "boom")] "boom" rfl
    rw [h]
    rfl
  · have h := claim1_message_extraction.2.2.2.2.2.1
      [("errors", .arr [.obj [("message", .str "bad input")]])] rfl
    rw [h]
    rfl

/-- Claim C2 counterexample: a body whose success field is the boolean
true but whose errors field is a string fails envelope validation, while
the claim allows failure only when success is absent or mistyped. -/
theorem claim2_counterexample :
    APIResponse.model_validate (.obj [("success", .bool true), ("errors", .str "boom")]) = none
  ∧ alookup [("success", Json.bool true), ("errors", Json.str "boom")] "success"
      = some (.bool true)
  ∧ laxBool (.bool true) = some true :=
  ⟨rfl, rfl, rfl⟩

/-- Claim C2 (amended): untyped envelope validation tolerates unknown
extra keys at the top level and inside every nested model (adding
undeclared keys never changes the result), fails when success is absent
or not coercible to a boolean and on every non-object input, but also
fails on other malformations such as a non-list errors value or a
non-object meta value. -/
theorem claim2_envelope_validation :
    (∀ (l extras : List (String × Json)), (∀ p ∈ extras, p.1 ∉ apiResponseKeys) →
      APIResponse.model_validate (.obj (l ++ extras)) = APIResponse.model_validate (.obj l))
  ∧ (∀ (l extras : List (String × Json)), (∀ p ∈ extras, p.1 ∉ apiMetaKeys) →
      validateAPIMeta (.obj (l ++ extras)) = validateAPIMeta (.obj l))
  ∧ (∀ (l extras : List (String × Json)), (∀ p ∈ extras, p.1 ∉ apiPaginationKeys) →
      validateAPIPagination (.obj (l ++ extras)) = validateAPIPagination (.obj l))
  ∧ (∀ (l extras : List (String × Json)), (∀ p ∈ extras, p.1 ∉ apiRespErrorKeys) →
      validateAPIRespError (.obj (l ++ extras)) = validateAPIRespError (.obj l))
  ∧ (∀ l : List (String × Json), alookup l "success" = none →
      APIResponse.model_validate (.obj l) = none)
  ∧ (∀ (l : List (String × Json)) v, alookup l "success" = some v → laxBool v = none →
      APIResponse.model_validate (.obj l) = none)
  ∧ (∀ j : Json, (∀ l, j ≠ .obj l) → APIResponse.model_validate j = none) := by
  have hk : ∀ (extras : List (String × Json)) (keys : List String),
      (∀ p ∈ extras, p.1 ∉ keys) → ∀ k ∈ keys, ∀ p ∈ extras, p.1 ≠ k := by
    intro extras keys hex k hkmem p hp he
    exact hex p hp (he ▸ hkmem)
  refine ⟨?_, ?_, ?_, ?_, ?_, ?_, ?_⟩
  · intro l extras hex
    simp only [APIResponse.model_validate,
      alookup_append_of_notin l extras "success"
        (hk extras apiResponseKeys hex "success" (by simp [apiResponseKeys])),
      alookup_append_of_notin l extras "meta"
        (hk extras apiResponseKeys hex "meta" (by simp [apiResponseKeys])),
      alookup_append_of_notin l extras "data"
        (hk extras apiResponseKeys hex "data" (by simp [apiResponseKeys])),
      alookup_append_of_notin l extras "errors"
        (hk extras apiResponseKeys hex "errors" (by simp [apiResponseKeys]))]
  · intro l extras hex
    simp only [validateAPIMeta,
      alookup_append_of_notin l extras "timestamp_unixts"
        (hk extras apiMetaKeys hex "timestamp_unixts" (by simp [apiMetaKeys])),
      alookup_append_of_notin l extras "operation"
        (hk extras apiMetaKeys hex "operation" (by simp [apiMetaKeys])),
      alookup_append_of_notin l extras "params"
        (hk extras apiMetaKeys hex "params" (by simp [apiMetaKeys])),
      alookup_append_of_notin l extras "hts_year"
        (hk extras apiMetaKeys hex "hts_year" (by simp [apiMetaKeys])),
      alookup_append_of_notin l extras "hts_version"
        (hk extras apiMetaKeys hex "hts_version" (by simp [apiMetaKeys])),
      alookup_append_of_notin l extras "pagination"
        (hk extras apiMetaKeys hex "pagination" (by simp [apiMetaKeys])),
      alookup_append_of_notin l extras "result_count"
        (hk extras apiMetaKeys hex "result_count" (by simp [apiMetaKeys])),
      alookup_append_of_notin l extras "window_info"
        (hk extras apiMetaKeys hex "window_info" (by simp [apiMetaKeys]))]
  · intro l extras hex
    simp only [validateAPIPagination,
      alookup_append_of_notin l extras "total"
        (hk extras apiPaginationKeys hex "total" (by simp [apiPaginationKeys])),
      alookup_append_of_notin l extras "limit"
        (hk extras apiPaginationKeys hex "limit" (by simp [apiPaginationKeys])),
      alookup_append_of_notin l extras "offset"
        (hk extras apiPaginationKeys hex "offset" (by simp [apiPaginationKeys])),
      alookup_append_of_notin l extras "next_offset"
        (hk extras apiPaginationKeys hex "next_offset" (by simp [apiPaginationKeys])),
      alookup_append_of_notin l extras "has_more"
        (hk extras apiPaginationKeys hex "has_more" (by simp [apiPaginationKeys])),
      alookup_append_of_notin l extras "returned_count"
        (hk extras apiPaginationKeys hex "returned_count" (by simp [apiPaginationKeys]))]
  · intro l extras hex
    simp only [validateAPIRespError,
      alookup_append_of_notin l extras "code"
        (hk extras apiRespErrorKeys hex "code" (by simp [apiRespErrorKeys])),
      alookup_append_of_notin l extras "message"
        (hk extras apiRespErrorKeys hex "message" (by simp [apiRespErrorKeys])),
      alookup_append_of_notin l extras "field"
        (hk extras apiRespErrorKeys hex "field" (by simp [apiRespErrorKeys]))]
  · intro l h
    simp [APIResponse.model_validate, h]
  · intro l v h1 h2
    simp [APIResponse.model_validate, h1, h2]
  · intro j hj
    cases j with
    | obj l => exact absurd rfl (hj l)
    | null => rfl
    | bool b => rfl
    | int n => rfl
    | float q => rfl
    | str s => rfl
    | arr elems => rfl

/-- Claim C2 witness: instantiations of the amended statement: adding an
undeclared key does not change validation of a concrete envelope, and a
concrete body without success fails. -/
theorem claim2_envelope_validation_witness :
    APIResponse.model_validate
        (.obj ([("success", .bool true)] ++ [("zzz", .int 1)]))
      = APIResponse.model_validate (.obj [("success", .bool true)])
  ∧ APIResponse.model_validate (.obj [("data", .int 1)]) = none := by
  constructor
  · exact claim2_envelope_validation.1 [("success", .bool true)] [("zzz", .int 1)]
      (by intro p hp; simp only [List.mem_singleton] at hp; subst hp; decide)
  · exact claim2_envelope_validation.2.2.2.2.1 [("data", .int 1)] rfl

/-- Claim C3 counterexample: with a persistent 502 whose JSON body is the
list containing the string detail, the loop does return the last response
after maxRetries + 1 calls, but the handling step then raises a type
error escaping from message extraction instead of the server failure the
claim prescribes for the status code. -/
theorem claim3_counterexample :
    (HttpTransport.send_with_retries (fun _ => .resp detailTrap) 0).result = .returned detailTrap
  ∧ (HttpTransport.send_with_retries (fun _ => .resp detailTrap) 0).calls = 1
  ∧ handle_response_data detailTrap = .error .typeError :=
  ⟨rfl, rfl, rfl⟩

/-- Claim C3 (amended): for every maxRetries and every run in which each
attempt yields a response with a retryable status, exactly maxRetries + 1
network calls are made and the loop returns the last response without
raising; provided message extraction does not throw on that response body
(which holds in particular for every JSON object body and for non-JSON
bodies), the handling step then raises the HTTP-status failure subtype
given by the status-code dispatch, carrying the original status code. -/
theorem claim3_retry_exhaustion (maxRetries : Nat) (f : Nat → Attempt) (rs : Nat → Response)
    (hresp : ∀ i, i ≤ maxRetries → f i = .resp (rs i))
    (hretry : ∀ i, i ≤ maxRetries → (rs i).status ∈ retryStatusCodes) :
    (HttpTransport.send_with_retries f maxRetries).calls = maxRetries + 1
  ∧ (HttpTransport.send_with_retries f maxRetries).result = .returned (rs maxRetries)
  ∧ (∀ meta errors message,
      parse_envelope (rs maxRetries).json = .ok (meta, errors, message) →
      handle_response_data (rs maxRetries) =
        .error (.sdk (.http
          { kind := classify_status (rs maxRetries).status,
            status_code := (rs maxRetries).status,
            message := message, errors := errors, meta := meta,
            raw_body := (rs maxRetries).text }))) := by
  have hcont : ∀ i, i + 1 < maxRetries + 1 → keepsRetrying (f (0 + i)) = true := by
    intro i hi
    have hle : i ≤ maxRetries := by omega
    rw [Nat.zero_add, hresp i hle]
    simp [keepsRetrying, hretry i hle]
  obtain ⟨hc, hr⟩ := sendGo_run f maxRetries (maxRetries + 1) 0 none none (by omega) hcont
  have hidx : 0 + (maxRetries + 1) - 1 = maxRetries := by omega
  rw [hidx, hresp maxRetries (le_refl _)] at hr
  refine ⟨hc, by simpa [finalOutcome] using hr, ?_⟩
  intro meta errors message hpe
  have hge : 400 ≤ (rs maxRetries).status :=
    retry_status_ge_400 (hretry maxRetries (le_refl _))
  simp [handle_response_data, hge, make_http_error, hpe]

/-- Claim C3 witness: a persistent 502 with an empty JSON object body and
maxRetries 1 makes two calls, returns the last response, and handling
raises the server failure carrying status 502. -/
theorem claim3_retry_exhaustion_witness :
    (HttpTransport.send_with_retries (fun _ => .resp obj502) 1).calls = 2
  ∧ (HttpTransport.send_with_retries (fun _ => .resp obj502) 1).result = .returned obj502
  ∧ handle_response_data obj502 =
      .error (.sdk (.http
        { kind := .server, status_code := 502, message := .str "API error",
          errors := none, meta := none, raw_body := "" })) := by
  have h := claim3_retry_exhaustion 1 (fun _ => .resp obj502) (fun _ => obj502)
    (fun _ _ => rfl) (fun _ _ => show obj502.status ∈ retryStatusCodes by decide)
  exact ⟨h.1, h.2.1, h.2.2 none none (.str "API error") rfl⟩

/-- Claim C4: when every one of the maxRetries + 1 attempts fails with a
network-level exception, the transport makes exactly maxRetries + 1 calls
and raises the connection failure (not an HTTP-status failure) whose
message references the attempt count maxRetries + 1 and which wraps the
last network exception as its cause. -/
theorem claim4_connection_exhaustion (maxRetries : Nat) (f : Nat → Attempt) (es : Nat → Nat)
    (hexc : ∀ i, i ≤ maxRetries → f i = .netExc (es i)) :
    (HttpTransport.send_with_retries f maxRetries).calls = maxRetries + 1
  ∧ (HttpTransport.send_with_retries f maxRetries).result
      = .connError (maxRetries + 1) (es maxRetries) := by
  have hcont : ∀ i, i + 1 < maxRetries + 1 → keepsRetrying (f (0 + i)) = true := by
    intro i hi
    rw [Nat.zero_add, hexc i (by omega)]
    rfl
  obtain ⟨hc, hr⟩ := sendGo_run f maxRetries (maxRetries + 1) 0 none none (by omega) hcont
  have hidx : 0 + (maxRetries + 1) - 1 = maxRetries := by omega
  rw [hidx, hexc maxRetries (le_refl _)] at hr
  exact ⟨hc, by simpa [finalOutcome] using hr⟩

/-- Claim C4 witness: one persistent network exception with maxRetries 0
makes one call and raises the connection failure referencing one attempt
and wrapping exception 7. -/
theorem claim4_connection_exhaustion_witness :
    (HttpTransport.send_with_retries (fun _ => .netExc 7) 0).calls = 1
  ∧ (HttpTransport.send_with_retries (fun _ => .netExc 7) 0).result = .connError 1 7 :=
  claim4_connection_exhaustion 0 (fun _ => .netExc 7) (fun _ => 7) (fun _ _ => rfl)

/-- Claim C10: the final attempt alone decides the failure mode on
exhaustion: whenever the earlier attempts all continue the loop (network
exception or retryable status) and the last attempt yields a response,
that response is returned even if earlier attempts were network
exceptions; and a connection failure is raised only when the last attempt
itself was a network exception, whose cause it wraps. -/
theorem claim10_last_attempt_decides (f : Nat → Attempt) (maxRetries : Nat) :
    ((∀ i, i < maxRetries → keepsRetrying (f i) = true) →
      ∀ r, f maxRetries = .resp r →
        (HttpTransport.send_with_retries f maxRetries).result = .returned r)
  ∧ (∀ a e, (HttpTransport.send_with_retries f maxRetries).result = .connError a e →
      f maxRetries = .netExc e ∧ a = maxRetries + 1) := by
  constructor
  · intro hcont r hlast
    have hcont' : ∀ i, i + 1 < maxRetries + 1 → keepsRetrying (f (0 + i)) = true := by
      intro i hi
      rw [Nat.zero_add]
      exact hcont i (by omega)
    obtain ⟨_, hr⟩ := sendGo_run f maxRetries (maxRetries + 1) 0 none none (by omega) hcont'
    have hidx : 0 + (maxRetries + 1) - 1 = maxRetries := by omega
    rw [hidx, hlast] at hr
    simpa [finalOutcome] using hr
  · intro a e h
    obtain ⟨ha, hcase⟩ := sendGo_conn f maxRetries (maxRetries + 1) 0 none none a e h
    rcases hcase with ⟨habs, _⟩ | ⟨_, hnet⟩
    · exact absurd habs (by omega)
    · have hidx : 0 + (maxRetries + 1) - 1 = maxRetries := by omega
      rw [hidx] at hnet
      exact ⟨hnet, ha⟩

/-- Claim C10 witness: a network exception followed by a retryable 502
returns the response, and a run ending in a network exception is the only
way to a connection failure (instantiated through the theorem). -/
theorem claim10_last_attempt_decides_witness :
    (HttpTransport.send_with_retries
        (fun i => if i = 0 then Attempt.netExc 3 else .resp obj502) 1).result
      = .returned obj502
  ∧ (fun _ : Nat => Attempt.netExc 5) 0 = .netExc 5 := by
  constructor
  · exact (claim10_last_attempt_decides
        (fun i => if i = 0 then Attempt.netExc 3 else .resp obj502) 1).1
      (by intro i hi; have h0 : i = 0 := (by omega); subst h0; rfl) obj502 rfl
  · exact ((claim10_last_attempt_decides (fun _ : Nat => Attempt.netExc 5) 0).2 1 5 rfl).1

/-- Claim C8: whenever the wrapped retry loop obtained some HTTP response,
whatever its status code and body, request_raw returns without raising a
RawResponse carrying that raw response together with a best-effort parsed
envelope, which is null exactly when the body was not valid JSON or did
not validate as an envelope; and closing the adapter is a no-op that
leaves the wrapped transport (and so its connection pool) untouched. -/
theorem claim8_raw_passthrough (f : Nat → Attempt) (maxRetries : Nat) (r : Response)
    (h : (HttpTransport.send_with_retries f maxRetries).result = .returned r) :
    HttpTransport.request_raw f maxRetries = .ok (make_raw r)
  ∧ (make_raw r).http_response = r
  ∧ ((make_raw r).parsed = none ↔
      r.json = none ∨ ∃ b, r.json = some b ∧ APIResponse.model_validate b = none)
  ∧ (∀ t : RawHttpTransport, t.close = t)
  ∧ (∀ t : RawHttpTransport, t.close.inner.closed = t.inner.closed) := by
  refine ⟨?_, rfl, ?_, fun t => rfl, fun t => rfl⟩
  · simp [HttpTransport.request_raw, h]
  · cases hj : r.json with
    | none => simp [make_raw, hj]
    | some b =>
      cases hv : APIResponse.model_validate b with
      | none => simp [make_raw, hj, hv]
      | some env => simp [make_raw, hj, hv]

/-- Claim C8 witness: a 404 response with a non-JSON body comes back as a
RawResponse with a null parsed envelope, without raising. -/
theorem claim8_raw_passthrough_witness :
    HttpTransport.request_raw (fun _ => .resp raw404) 0 = .ok (make_raw raw404)
  ∧ (make_raw raw404).parsed = none := by
  have h := claim8_raw_passthrough (fun _ => .resp raw404) 0 raw404 rfl
  exact ⟨h.1, h.2.2.1.mpr (.inl rfl)⟩

lemma get_adapter_wf {K : Type} [DecidableEq K] (k : K) (c : AdapterCache K)
    (h : CacheWF c) : CacheWF (get_adapter k c).2 := by
  obtain ⟨hmap, hnod⟩ := h
  unfold get_adapter
  cases hl : alookup c.entries k with
  | some d => exact ⟨hmap, hnod⟩
  | none =>
    have hnotmem : k ∉ c.builds := by
      rw [← hmap]
      exact alookup_none_notMem c.entries k hl
    refine ⟨by simp [hmap], ?_⟩
    rw [List.nodup_append]
    refine ⟨hnod, List.nodup_singleton k, ?_⟩
    intro x hx hmem
    simp only [List.mem_singleton] at hmem
    subst hmem
    exact hnotmem hx

lemma runGets_wf {K : Type} [DecidableEq K] (ks : List K) (c : AdapterCache K)
    (h : CacheWF c) : CacheWF (runGets ks c) := by
  induction ks generalizing c with
  | nil => exact h
  | cons k rest ih => exact ih ((get_adapter k c).2) (get_adapter_wf k c h)

lemma get_adapter_preserves {K : Type} [DecidableEq K] (k' k : K) (c : AdapterCache K)
    (d : ShapeAdapter K) (h : alookup c.entries k = some d) :
    alookup (get_adapter k' c).2.entries k = some d := by
  unfold get_adapter
  cases hl : alookup c.entries k' with
  | some d2 => exact h
  | none => exact alookup_append_of_some _ _ _ h

lemma runGets_preserves {K : Type} [DecidableEq K] (ks : List K) (c : AdapterCache K)
    (k : K) (d : ShapeAdapter K) (h : alookup c.entries k = some d) :
    alookup (runGets ks c).entries k = some d := by
  induction ks generalizing c with
  | nil => exact h
  | cons k0 rest ih =>
    exact ih ((get_adapter k0 c).2) (get_adapter_preserves k0 k c d h)

lemma get_adapter_builds {K : Type} [DecidableEq K] (k : K) (c : AdapterCache K) :
    (get_adapter k c).2.builds = c.builds ∨
      (get_adapter k c).2.builds = c.builds ++ [k] := by
  unfold get_adapter
  cases hl : alookup c.entries k with
  | some d => exact .inl rfl
  | none => exact .inr rfl

lemma runGets_builds_from {K : Type} [DecidableEq K] (ks : List K) (c : AdapterCache K) :
    ∀ k ∈ (runGets ks c).builds, k ∈ c.builds ∨ k ∈ ks := by
  induction ks generalizing c with
  | nil => intro k hk; exact .inl hk
  | cons k0 rest ih =>
    intro k hk
    rcases ih ((get_adapter k0 c).2) k hk with hc' | hrest
    · rcases get_adapter_builds k0 c with heq | heq
      · rw [heq] at hc'
        exact .inl hc'
      · rw [heq] at hc'
        rcases List.mem_append.mp hc' with hcb | hk0
        · exact .inl hcb
        · simp only [List.mem_singleton] at hk0
          subst hk0
          exact .inr (by simp)
    · exact .inr (by simp [hrest])

lemma nodup_subset_dedup_length {K : Type} [DecidableEq K] (d ks : List K)
    (hnod : d.Nodup) (hsub : ∀ k ∈ d, k ∈ ks) : d.length ≤ ks.dedup.length := by
  have h1 : d.toFinset.card = d.length := List.toFinset_card_of_nodup hnod
  have h2 : d.toFinset ⊆ ks.toFinset := by
    intro x hx
    rw [List.mem_toFinset] at hx ⊢
    exact hsub x hx
  calc d.length = d.toFinset.card := h1.symm
    _ ≤ ks.toFinset.card := Finset.card_le_card h2
    _ = ks.dedup.length := List.card_toFinset ks

/-- Claim C9: get_adapter builds and stores a decoder on the first request
for a key and returns the stored decoder, leaving the cache unchanged, on
every later request; across any call sequence from the empty cache each
key is built at most once, stored entries are never evicted or replaced,
and the cache size stays bounded by the number of distinct keys
requested. -/
theorem claim9_adapter_cache :
    (∀ (K : Type) [DecidableEq K] (k : K) (c : AdapterCache K),
      alookup c.entries k = none →
        (get_adapter k c).1 = buildAdapter k
      ∧ (get_adapter k c).2.entries = c.entries ++ [(k, buildAdapter k)]
      ∧ (get_adapter k c).2.builds = c.builds ++ [k])
  ∧ (∀ (K : Type) [DecidableEq K] (k : K) (c : AdapterCache K) (d : ShapeAdapter K),
      alookup c.entries k = some d → get_adapter k c = (d, c))
  ∧ (∀ (K : Type) [DecidableEq K] (ks : List K) (k : K),
      ((runGets ks (AdapterCache.empty K)).builds).count k ≤ 1)
  ∧ (∀ (K : Type) [DecidableEq K] (ks : List K) (c : AdapterCache K)
        (k : K) (d : ShapeAdapter K),
      alookup c.entries k = some d → alookup (runGets ks c).entries k = some d)
  ∧ (∀ (K : Type) [DecidableEq K] (ks : List K),
      (runGets ks (AdapterCache.empty K)).entries.length ≤ ks.dedup.length) := by
  refine ⟨?_, ?_, ?_, ?_, ?_⟩
  · intro K instK k c h
    unfold get_adapter
    rw [h]
    exact ⟨rfl, rfl, rfl⟩
  · intro K instK k c d h
    unfold get_adapter
    rw [h]
  · intro K instK ks k
    have hwf : CacheWF (runGets ks (AdapterCache.empty K)) :=
      runGets_wf ks _ ⟨rfl, List.nodup_nil⟩
    exact List.nodup_iff_count_le_one.mp hwf.2 k
  · intro K instK ks c k d h
    exact runGets_preserves ks c k d h
  · intro K instK ks
    have hwf : CacheWF (runGets ks (AdapterCache.empty K)) :=
      runGets_wf ks _ ⟨rfl, List.nodup_nil⟩
    have hlen : (runGets ks (AdapterCache.empty K)).entries.length
        = (runGets ks (AdapterCache.empty K)).builds.length := by
      rw [← hwf.1, List.length_map]
    rw [hlen]
    refine nodup_subset_dedup_length _ ks hwf.2 ?_
    intro k hk
    rcases runGets_builds_from ks (AdapterCache.empty K) k hk with habs | hmem
    · simp [AdapterCache.empty] at habs
    · exact hmem

/-- Claim C9 witness: a concrete run over natural-number keys: the first
request for key 5 builds and stores, the second returns from cache
unchanged, and after requesting 5, 7, 5 the key 5 was built at most once. -/
theorem claim9_adapter_cache_witness :
    ((get_adapter 5 (AdapterCache.empty Nat)).1 = buildAdapter 5
  ∧ (get_adapter 5 (AdapterCache.empty Nat)).2.entries
      = (AdapterCache.empty Nat).entries ++ [(5, buildAdapter 5)]
  ∧ (get_adapter 5 (AdapterCache.empty Nat)).2.builds
      = (AdapterCache.empty Nat).builds ++ [5])
  ∧ get_adapter 5 { entries := [(5, buildAdapter 5)], builds := [5] }
      = (buildAdapter 5, { entries := [(5, buildAdapter 5)], builds := [5] })
  ∧ ((runGets [5, 7, 5] (AdapterCache.empty Nat)).builds).count 5 ≤ 1 := by
  refine ⟨claim9_adapter_cache.1 Nat 5 (AdapterCache.empty Nat) rfl, ?_, ?_⟩
  · exact claim9_adapter_cache.2.1 Nat 5 _ (buildAdapter 5) rfl
  · exact claim9_adapter_cache.2.2.1 Nat [5, 7, 5] 5
